import Mathlib

/-!
Verification of the Gentooui installation orchestrator, wizard navigator,
prerequisite gate and command runner, shallowly embedded from the Python
sources `src/gentooui/core/installer.py`, `src/gentooui/core/app.py` and
`src/gentooui/utils/system.py`.
-/

namespace Gentooui

/-- Enumeration of installation steps (`InstallationStep` in
`core/installer.py`, lines 24-35). -/
inductive InstallationStep where
  | disk_setup
  | stage3_download
  | stage3_extract
  | portage_setup
  | system_config
  | kernel_install
  | kernel_config
  | kernel_compile
  | bootloader_install
  | finalization
deriving DecidableEq, Repr

/-- The string value attached to each enum member in `core/installer.py`. -/
def InstallationStep.value : InstallationStep → String
  | .disk_setup => "disk_setup"
  | .stage3_download => "stage3_download"
  | .stage3_extract => "stage3_extract"
  | .portage_setup => "portage_setup"
  | .system_config => "system_config"
  | .kernel_install => "kernel_install"
  | .kernel_config => "kernel_config"
  | .kernel_compile => "kernel_compile"
  | .bootloader_install => "bootloader_install"
  | .finalization => "finalization"

/-- Progress information for an installation step (`StepProgress` dataclass,
`core/installer.py` lines 38-46). Fractional progress is modelled by a
rational number; the code only ever uses exact literals such as 0.0 and 1.0
at the orchestrator level. -/
structure StepProgress where
  step : InstallationStep
  name : String
  progress : ℚ
  status : String
  details : Option String
  error : Option String
deriving DecidableEq, Repr

/-- The identifier/name part of one entry of `InstallationManager.steps`
(`core/installer.py` lines 71-82); the bound run coroutine of an entry is
abstracted by a `StageOutcome` when a run is modelled. -/
structure Stage where
  step : InstallationStep
  name : String
deriving DecidableEq, Repr

/-- The observable behaviour of one stage's `await func()` call inside
`run_full_installation`: it returns `True`, returns `False`, or raises an
exception whose rendered message is `msg`. -/
inductive StageOutcome where
  | success
  | failure
  | raises (msg : String)
deriving DecidableEq, Repr

/-- The event built at the `self._report_progress(step, name, 0.0,
"Starting...")` call site (`core/installer.py` lines 128-133). -/
def startingEvent (s : Stage) : StepProgress :=
  ⟨s.step, s.name, 0, "Starting...", none, none⟩

/-- The event built at the `progress=1.0, status="Completed"` call site
(`core/installer.py` lines 149-154). -/
def completedEvent (s : Stage) : StepProgress :=
  ⟨s.step, s.name, 1, "Completed", none, none⟩

/-- The event built at the `status="Failed"` call site
(`core/installer.py` lines 138-146): progress 0.0 and error text
`f"Step failed: {name}"`. -/
def failedEvent (s : Stage) : StepProgress :=
  ⟨s.step, s.name, 0, "Failed", none, some ("Step failed: " ++ s.name)⟩

/-- The event built at the `status="Error"` call site
(`core/installer.py` lines 156-165): progress 0.0 and error text
`f"Exception in step {name}: {e}"`. -/
def errorEvent (s : Stage) (e : String) : StepProgress :=
  ⟨s.step, s.name, 0, "Error", none, some ("Exception in step " ++ s.name ++ ": " ++ e)⟩

/-- Result of one `run_full_installation` call: the returned boolean, the
final state of the progress sink after all `_report_progress` deliveries,
the final value of the `self.current_step` field, and the sequence of stage
identifiers whose run coroutine was actually awaited. -/
structure RunResult (σ : Type) where
  ok : Bool
  sink : σ
  current : Option InstallationStep
  invoked : List InstallationStep
deriving Repr

/-- The loop of `InstallationManager.run_full_installation`
(`core/installer.py` lines 112-173), generic in the registered progress
callback: `progress_callback` threads a sink state `σ` through successive
`_report_progress` deliveries (an unregistered callback is the no-op sink
on `σ = Unit`). Each iteration sets `current_step`, emits a starting event,
awaits the stage, and either continues after a completed event or returns
`False` after a failed/error event; after the loop it returns `True`. -/
def run_full_installation_aux {σ : Type} (progress_callback : σ → StepProgress → σ)
    (acc : σ) (current_step : Option InstallationStep) :
    List (Stage × StageOutcome) → RunResult σ
  | [] => ⟨true, acc, current_step, []⟩
  | (s, o) :: rest =>
    let acc1 := progress_callback acc (startingEvent s)
    match o with
    | .success =>
      let r := run_full_installation_aux progress_callback
        (progress_callback acc1 (completedEvent s)) (some s.step) rest
      ⟨r.ok, r.sink, r.current, s.step :: r.invoked⟩
    | .failure => ⟨false, progress_callback acc1 (failedEvent s), some s.step, [s.step]⟩
    | .raises e => ⟨false, progress_callback acc1 (errorEvent s e), some s.step, [s.step]⟩

/-- The event-trace sink: a progress callback that records, in delivery
order, every event the orchestrator hands to it. -/
def traceSink : List StepProgress → StepProgress → List StepProgress :=
  fun t e => t ++ [e]

/-- `run_full_installation` with the event-trace sink. The initial
`current_step` is `None` (`core/installer.py` line 60). -/
def run_full_installation (stages : List (Stage × StageOutcome)) :
    RunResult (List StepProgress) :=
  run_full_installation_aux traceSink [] none stages

/-- The trace a list of all-succeeding stages contributes: a starting event
followed by a completed event, per stage in order. -/
def completedTrace (pre : List Stage) : List StepProgress :=
  (pre.map fun t => [startingEvent t, completedEvent t]).flatten

/-- The identifier of the stage a run ends on: the first non-success stage,
or the last stage when all succeed, or `none` for the empty sequence. -/
def lastAttempted : List (Stage × StageOutcome) → Option InstallationStep
  | [] => none
  | (s, .success) :: rest => some ((lastAttempted rest).getD s.step)
  | (s, _) :: _ => some s.step

/-- The (identifier, display name) pairs of `InstallationManager.steps`
(`core/installer.py` lines 71-82), run coroutines abstracted away exactly
as `get_all_steps` does. -/
def InstallationManager.steps : List (InstallationStep × String) :=
  [(.disk_setup, "Setting up disk partitions"),
   (.stage3_download, "Downloading Stage3"),
   (.stage3_extract, "Extracting Stage3"),
   (.portage_setup, "Configuring Portage"),
   (.system_config, "System configuration"),
   (.kernel_install, "Installing kernel sources"),
   (.kernel_config, "Configuring kernel"),
   (.kernel_compile, "Compiling kernel"),
   (.bootloader_install, "Installing bootloader"),
   (.finalization, "Finalizing installation")]

/-- The initial value of `self.current_step` set in
`InstallationManager.__init__` (`core/installer.py` line 60); `get_current_step`
returns this field unchanged when no run has touched it. -/
def InstallationManager.initial_current_step : Option InstallationStep := none

/-- `InstallationManager.validate_prerequisites` (`core/installer.py`
lines 394-417) over the four system-inspection oracles it consults:
root check and target-disk check are guarded by `not self.config.dry_run`;
a non-empty mount point only appends a warning. The returned pair is the
boolean result together with the warnings logged. -/
def InstallationManager.validate_prerequisites
    (dry_run is_root target_disk_exists mount_point_nonempty : Bool) :
    Bool × List String :=
  if !dry_run && !is_root then (false, [])
  else if !dry_run && !target_disk_exists then (false, [])
  else (true, if mount_point_nonempty then ["Mount point is not empty"] else [])

/-- The (title, identifier) pairs of `GentooUIApp.steps`
(`core/app.py` lines 66-74). -/
def GentooUIApp.steps : List (String × String) :=
  [("Welcome", "welcome"),
   ("Disk Setup", "disk_setup"),
   ("Stage3", "stage3"),
   ("Configuration", "configuration"),
   ("Kernel", "kernel"),
   ("Bootloader", "bootloader"),
   ("Finalization", "finalization")]

/-- The reactive `total_steps` field of `GentooUIApp`
(`core/app.py` line 55). -/
def GentooUIApp.total_steps : Nat := 7

/-- `GentooUIApp.advance_step` (`core/app.py` lines 286-292) acting on the
`current_step` index, an unbounded integer in Python; the progress-bar and
counter refresh are display side effects with no bearing on the index. -/
def GentooUIApp.advance_step (current_step : Int) : Int :=
  if current_step < (GentooUIApp.total_steps : Int) - 1 then current_step + 1
  else current_step

/-- `GentooUIApp.previous_step` (`core/app.py` lines 294-300) acting on the
`current_step` index. -/
def GentooUIApp.previous_step (current_step : Int) : Int :=
  if current_step > 0 then current_step - 1 else current_step

/-- One navigation request: a call to `advance_step` or `previous_step`. -/
inductive NavOp where
  | advance
  | retreat
deriving DecidableEq, Repr

/-- Apply a finite sequence of navigation requests, left to right. -/
def applyNavOps (ops : List NavOp) (start : Int) : Int :=
  ops.foldl
    (fun idx op =>
      match op with
      | .advance => GentooUIApp.advance_step idx
      | .retreat => GentooUIApp.previous_step idx)
    start

/-- The observable behaviour of the external process inside `run_command`
(`utils/system.py` lines 165-215): the process runs to completion before
the timeout with an exit code and captured output, `asyncio.wait_for`
expires first, or `asyncio.create_subprocess_exec` itself raises (for
example, executable missing) with rendered message `msg`. -/
inductive ProcBehavior where
  | completes (returncode : Int) (stdout stderr : String)
  | timesOut
  | launchFailure (msg : String)
deriving DecidableEq, Repr

/-- What one `run_command` call produces: the returned
`(return_code, stdout, stderr)` triple, plus whether `process.kill()` was
invoked and whether the process handle was awaited to the end
(`process.communicate()` or `process.wait()`). -/
structure CommandOutcome where
  returncode : Int
  stdout : String
  stderr : String
  killed : Bool
  reaped : Bool
deriving DecidableEq, Repr

/-- `run_command` (`utils/system.py` lines 165-215). On completion the
decoded output is returned when `capture_output` is set and empty strings
otherwise; on `asyncio.TimeoutError` the process is killed, awaited, and
`(-1, "", "Command timed out")` is returned; on any other exception
`(-1, "", str(e))` is returned. The function is total: every branch
returns a triple rather than propagating the exception. -/
def run_command (capture_output : Bool) : ProcBehavior → CommandOutcome
  | .completes returncode stdout stderr =>
    ⟨returncode, if capture_output then stdout else "",
      if capture_output then stderr else "", false, true⟩
  | .timesOut => ⟨-1, "", "Command timed out", true, true⟩
  | .launchFailure msg => ⟨-1, "", msg, false, false⟩

/-! Helper lemmas about the orchestrator loop. -/

/-- With the trace sink, the accumulated prefix factors out of the run. -/
theorem aux_trace_append (stages : List (Stage × StageOutcome)) :
    ∀ (acc : List StepProgress) (cur : Option InstallationStep),
      (run_full_installation_aux traceSink acc cur stages).ok
          = (run_full_installation_aux traceSink [] cur stages).ok ∧
        (run_full_installation_aux traceSink acc cur stages).sink
          = acc ++ (run_full_installation_aux traceSink [] cur stages).sink ∧
        (run_full_installation_aux traceSink acc cur stages).current
          = (run_full_installation_aux traceSink [] cur stages).current ∧
        (run_full_installation_aux traceSink acc cur stages).invoked
          = (run_full_installation_aux traceSink [] cur stages).invoked := by
  induction stages with
  | nil => intro acc cur; simp [run_full_installation_aux]
  | cons p rest ih =>
    obtain ⟨s, o⟩ := p
    intro acc cur
    cases o with
    | success =>
      simp only [run_full_installation_aux, traceSink]
      obtain ⟨h1, h2, h3, h4⟩ :=
        ih (acc ++ [startingEvent s] ++ [completedEvent s]) (some s.step)
      obtain ⟨g1, g2, g3, g4⟩ :=
        ih ([] ++ [startingEvent s] ++ [completedEvent s]) (some s.step)
      refine ⟨h1.trans g1.symm, ?_, h3.trans g3.symm, ?_⟩
      · rw [h2, g2]
        simp
      · rw [h4, g4]
    | failure => simp [run_full_installation_aux, traceSink]
    | raises e => simp [run_full_installation_aux, traceSink]

/-- The boolean result, delivered events and invoked stages do not depend
on the incoming value of the `current_step` field. -/
theorem aux_cur_indep {σ : Type} (rep : σ → StepProgress → σ)
    (stages : List (Stage × StageOutcome)) (acc : σ)
    (cur₁ cur₂ : Option InstallationStep) :
    (run_full_installation_aux rep acc cur₁ stages).ok
        = (run_full_installation_aux rep acc cur₂ stages).ok ∧
      (run_full_installation_aux rep acc cur₁ stages).sink
        = (run_full_installation_aux rep acc cur₂ stages).sink ∧
      (run_full_installation_aux rep acc cur₁ stages).invoked
        = (run_full_installation_aux rep acc cur₂ stages).invoked := by
  cases stages with
  | nil => simp [run_full_installation_aux]
  | cons p rest =>
    obtain ⟨s, o⟩ := p
    cases o <;> simp [run_full_installation_aux]

/-- The final value of the `current_step` field is the stage the run ended
on, or the incoming value when no stage was entered. -/
theorem aux_current {σ : Type} (rep : σ → StepProgress → σ)
    (stages : List (Stage × StageOutcome)) :
    ∀ (acc : σ) (cur : Option InstallationStep),
      (run_full_installation_aux rep acc cur stages).current
        = (lastAttempted stages).elim cur some := by
  induction stages with
  | nil => intro acc cur; simp [run_full_installation_aux, lastAttempted]
  | cons p rest ih =>
    obtain ⟨s, o⟩ := p
    intro acc cur
    cases o with
    | success =>
      simp only [run_full_installation_aux, lastAttempted]
      rw [ih]
      cases lastAttempted rest <;> simp
    | failure => simp [run_full_installation_aux, lastAttempted]
    | raises e => simp [run_full_installation_aux, lastAttempted]

/-- Running an all-succeeding prefix contributes its completed trace and its
invocations, and hands control to the rest of the sequence. -/
theorem run_prefix_success (pre : List Stage) :
    ∀ (cur : Option InstallationStep) (rest : List (Stage × StageOutcome)),
      (run_full_installation_aux traceSink [] cur
            (pre.map (fun t => (t, StageOutcome.success)) ++ rest)).ok
          = (run_full_installation_aux traceSink [] none rest).ok ∧
        (run_full_installation_aux traceSink [] cur
            (pre.map (fun t => (t, StageOutcome.success)) ++ rest)).sink
          = completedTrace pre ++ (run_full_installation_aux traceSink [] none rest).sink ∧
        (run_full_installation_aux traceSink [] cur
            (pre.map (fun t => (t, StageOutcome.success)) ++ rest)).invoked
          = pre.map Stage.step
              ++ (run_full_installation_aux traceSink [] none rest).invoked := by
  induction pre with
  | nil =>
    intro cur rest
    obtain ⟨h1, h2, h3⟩ := aux_cur_indep traceSink rest [] cur none
    simpa [completedTrace] using ⟨h1, h2, h3⟩
  | cons t pre' ih =>
    intro cur rest
    simp only [List.map_cons, List.cons_append, run_full_installation_aux, traceSink,
      List.append_eq]
    obtain ⟨a1, a2, a3, a4⟩ :=
      aux_trace_append (pre'.map (fun t => (t, StageOutcome.success)) ++ rest)
        ([] ++ [startingEvent t] ++ [completedEvent t]) (some t.step)
    obtain ⟨b1, b2, b3⟩ := ih (some t.step) rest
    refine ⟨a1.trans b1, ?_, ?_⟩
    · rw [a2, b2]
      simp [completedTrace]
    · rw [a4, b3]

/-- C1: fail-fast. For every stage sequence in which stage k is the first
to return false or to raise, `run_full_installation` returns false; the
event trace is exactly a starting event followed by a completed event at
progress 1.0 for each earlier stage, then the starting event of stage k
and a single terminal failed (or error) event for it, and nothing at all
for the stages after k. -/
theorem C1_fail_fast (pre : List Stage) (s : Stage) (e : String)
    (post : List (Stage × StageOutcome)) :
    (run_full_installation
        (pre.map (fun t => (t, StageOutcome.success)) ++ (s, StageOutcome.failure) :: post)).ok
      = false ∧
    (run_full_installation
        (pre.map (fun t => (t, StageOutcome.success)) ++ (s, StageOutcome.failure) :: post)).sink
      = completedTrace pre ++ [startingEvent s, failedEvent s] ∧
    (run_full_installation
        (pre.map (fun t => (t, StageOutcome.success)) ++ (s, StageOutcome.raises e) :: post)).ok
      = false ∧
    (run_full_installation
        (pre.map (fun t => (t, StageOutcome.success)) ++ (s, StageOutcome.raises e) :: post)).sink
      = completedTrace pre ++ [startingEvent s, errorEvent s e] := by
  obtain ⟨f1, f2, _⟩ := run_prefix_success pre none ((s, StageOutcome.failure) :: post)
  obtain ⟨r1, r2, _⟩ := run_prefix_success pre none ((s, StageOutcome.raises e) :: post)
  refine ⟨?_, ?_, ?_, ?_⟩
  · rw [run_full_installation, f1]
    simp [run_full_installation_aux, traceSink]
  · rw [run_full_installation, f2]
    simp [run_full_installation_aux, traceSink]
  · rw [run_full_installation, r1]
    simp [run_full_installation_aux, traceSink]
  · rw [run_full_installation, r2]
    simp [run_full_installation_aux, traceSink]

/-- C2: all-success run. For every stage sequence in which every stage
returns true, `run_full_installation` returns true and the event trace is
exactly one starting event followed by one completed event per stage, in
sequence order; for the empty sequence it returns true with no events. -/
theorem C2_all_success (stages : List Stage) :
    (run_full_installation (stages.map (fun t => (t, StageOutcome.success)))).ok = true ∧
    (run_full_installation (stages.map (fun t => (t, StageOutcome.success)))).sink
      = completedTrace stages ∧
    (run_full_installation ([] : List (Stage × StageOutcome))).ok = true ∧
    (run_full_installation ([] : List (Stage × StageOutcome))).sink = [] := by
  obtain ⟨h1, h2, _⟩ := run_prefix_success stages none []
  simp only [List.append_nil] at h1 h2
  refine ⟨?_, ?_, ?_, ?_⟩
  · rw [run_full_installation, h1]
    simp [run_full_installation_aux]
  · rw [run_full_installation, h2]
    simp [run_full_installation_aux]
  · simp [run_full_installation, run_full_installation_aux]
  · simp [run_full_installation, run_full_installation_aux]

/-- C3: exception containment. A raising stage makes
`run_full_installation` return false with a terminal error event carrying
the exception message, exactly as an explicit false return does up to the
terminal event's status text and error text: the traces agree except for
their last event, and the two terminal events agree on stage, name and
progress. The run is a total function into a boolean plus events, so no
exception crosses the boundary. -/
theorem C3_exception_contained (pre : List Stage) (s : Stage) (e : String)
    (post : List (Stage × StageOutcome)) :
    (run_full_installation
        (pre.map (fun t => (t, StageOutcome.success)) ++ (s, StageOutcome.raises e) :: post)).ok
      = false ∧
    (run_full_installation
        (pre.map (fun t => (t, StageOutcome.success)) ++ (s, StageOutcome.raises e) :: post)).sink
      = completedTrace pre ++ [startingEvent s, errorEvent s e] ∧
    (errorEvent s e).status = "Error" ∧
    (errorEvent s e).error = some ("Exception in step " ++ s.name ++ ": " ++ e) ∧
    (run_full_installation
          (pre.map (fun t => (t, StageOutcome.success)) ++ (s, StageOutcome.raises e) :: post)).ok
      = (run_full_installation
          (pre.map (fun t => (t, StageOutcome.success)) ++ (s, StageOutcome.failure) :: post)).ok ∧
    (run_full_installation
          (pre.map (fun t => (t, StageOutcome.success)) ++ (s, StageOutcome.raises e) :: post)).sink.dropLast
      = (run_full_installation
          (pre.map (fun t => (t, StageOutcome.success)) ++ (s, StageOutcome.failure) :: post)).sink.dropLast ∧
    (errorEvent s e).step = (failedEvent s).step ∧
    (errorEvent s e).name = (failedEvent s).name ∧
    (errorEvent s e).progress = (failedEvent s).progress := by
  obtain ⟨f1, f2, _⟩ := run_prefix_success pre none ((s, StageOutcome.failure) :: post)
  obtain ⟨r1, r2, _⟩ := run_prefix_success pre none ((s, StageOutcome.raises e) :: post)
  have hr : (run_full_installation
      (pre.map (fun t => (t, StageOutcome.success)) ++ (s, StageOutcome.raises e) :: post)).sink
      = completedTrace pre ++ [startingEvent s, errorEvent s e] := by
    rw [run_full_installation, r2]
    simp [run_full_installation_aux, traceSink]
  have hf : (run_full_installation
      (pre.map (fun t => (t, StageOutcome.success)) ++ (s, StageOutcome.failure) :: post)).sink
      = completedTrace pre ++ [startingEvent s, failedEvent s] := by
    rw [run_full_installation, f2]
    simp [run_full_installation_aux, traceSink]
  refine ⟨?_, hr, rfl, rfl, ?_, ?_, rfl, rfl, rfl⟩
  · rw [run_full_installation, r1]
    simp [run_full_installation_aux, traceSink]
  · rw [run_full_installation, r1, run_full_installation, f1]
    simp [run_full_installation_aux, traceSink]
  · rw [hr, hf]
    have h1 : completedTrace pre ++ [startingEvent s, errorEvent s e]
        = (completedTrace pre ++ [startingEvent s]) ++ [errorEvent s e] := by simp
    have h2 : completedTrace pre ++ [startingEvent s, failedEvent s]
        = (completedTrace pre ++ [startingEvent s]) ++ [failedEvent s] := by simp
    rw [h1, h2, List.dropLast_concat, List.dropLast_concat]

/-- C4: uniform failure shape of `run_command`. On timeout the process is
killed and awaited and the call returns status -1 with the "timed out"
reason in the error-text position; a launch failure returns the same
sentinel status with the exception message; the embedding of the function
is total, so no failure case propagates an exception to the caller. -/
theorem C4_run_command_failure_shape (capture_output : Bool) (msg : String) :
    (run_command capture_output ProcBehavior.timesOut).returncode = -1 ∧
    (run_command capture_output ProcBehavior.timesOut).killed = true ∧
    (run_command capture_output ProcBehavior.timesOut).reaped = true ∧
    (run_command capture_output ProcBehavior.timesOut).stderr
      = "Command " ++ "timed out" ∧
    (run_command capture_output (ProcBehavior.launchFailure msg))
      = ⟨-1, "", msg, false, false⟩ := by
  cases capture_output <;> exact ⟨rfl, rfl, rfl, rfl, rfl⟩

/-- C5: prerequisite gate under dry-run. With `dry_run = true`,
`validate_prerequisites` returns true whatever the root-privilege and
target-disk oracles report; for every configuration, mount-point
non-emptiness never changes the boolean result, and in the passing dry-run
case it contributes exactly the logged warning. -/
theorem C5_dry_run_gate (dry_run is_root target_disk_exists mount_point_nonempty : Bool) :
    (InstallationManager.validate_prerequisites true is_root target_disk_exists
        mount_point_nonempty).1 = true ∧
    (InstallationManager.validate_prerequisites dry_run is_root target_disk_exists true).1
      = (InstallationManager.validate_prerequisites dry_run is_root
          target_disk_exists false).1 ∧
    (InstallationManager.validate_prerequisites true is_root target_disk_exists true).2
      = ["Mount point is not empty"] := by
  cases dry_run <;> cases is_root <;> cases target_disk_exists <;>
    cases mount_point_nonempty <;>
    simp [InstallationManager.validate_prerequisites]

/-- One navigation call preserves the index range `[0, total_steps - 1]`. -/
theorem nav_step_preserves_range (op : NavOp) (i : Int)
    (h0 : 0 ≤ i) (h1 : i ≤ (GentooUIApp.total_steps : Int) - 1) :
    0 ≤ (match op with
          | NavOp.advance => GentooUIApp.advance_step i
          | NavOp.retreat => GentooUIApp.previous_step i) ∧
      (match op with
          | NavOp.advance => GentooUIApp.advance_step i
          | NavOp.retreat => GentooUIApp.previous_step i)
        ≤ (GentooUIApp.total_steps : Int) - 1 := by
  cases op <;>
    simp only [GentooUIApp.advance_step, GentooUIApp.previous_step,
      GentooUIApp.total_steps] at * <;>
    split <;> omega

/-- Any navigation sequence started inside the index range stays there. -/
theorem nav_invariant (ops : List NavOp) :
    ∀ i : Int, 0 ≤ i → i ≤ (GentooUIApp.total_steps : Int) - 1 →
      0 ≤ applyNavOps ops i ∧
        applyNavOps ops i ≤ (GentooUIApp.total_steps : Int) - 1 := by
  induction ops with
  | nil => intro i h0 h1; simpa [applyNavOps] using ⟨h0, h1⟩
  | cons op rest ih =>
    intro i h0 h1
    cases op with
    | advance =>
      obtain ⟨g0, g1⟩ := nav_step_preserves_range NavOp.advance i h0 h1
      have hstep : applyNavOps (NavOp.advance :: rest) i
          = applyNavOps rest (GentooUIApp.advance_step i) := by
        simp [applyNavOps]
      rw [hstep]
      exact ih _ g0 g1
    | retreat =>
      obtain ⟨g0, g1⟩ := nav_step_preserves_range NavOp.retreat i h0 h1
      have hstep : applyNavOps (NavOp.retreat :: rest) i
          = applyNavOps rest (GentooUIApp.previous_step i) := by
        simp [applyNavOps]
      rw [hstep]
      exact ih _ g0 g1

/-- C7: navigator index invariant. `advance_step` at the last index and
`previous_step` at index 0 are no-ops, and every finite sequence of
advance/retreat calls started at index 0 keeps the index within
`[0, total_steps - 1]`. -/
theorem C7_navigator_bounds (ops : List NavOp) :
    GentooUIApp.advance_step ((GentooUIApp.total_steps : Int) - 1)
        = (GentooUIApp.total_steps : Int) - 1 ∧
      GentooUIApp.previous_step 0 = 0 ∧
      0 ≤ applyNavOps ops 0 ∧
      applyNavOps ops 0 ≤ (GentooUIApp.total_steps : Int) - 1 := by
  obtain ⟨h0, h1⟩ := nav_invariant ops 0 (by omega)
    (by simp [GentooUIApp.total_steps])
  exact ⟨by simp [GentooUIApp.advance_step],
    by simp [GentooUIApp.previous_step], h0, h1⟩

/-- C6 counterexample: after `run_full_installation` returns from a
one-stage successful run, the `current_step` field read by
`get_current_step` still holds that stage — it is not reset to none, so
the accessor does not report idleness after a run. -/
theorem C6_counterexample :
    ¬ (run_full_installation
        [(⟨InstallationStep.disk_setup, "Setting up disk partitions"⟩,
          StageOutcome.success)]).current = none := by
  simp [run_full_installation, run_full_installation_aux]

/-- C6 amended: `get_current_step` returns none before any run has
started; once `run_full_installation` has returned, it holds the stage the
run ended on (the first failing stage, or the last stage when all
succeed), and it is none after a run only for the empty stage sequence. -/
theorem C6_current_step_accessor (stages : List (Stage × StageOutcome)) :
    InstallationManager.initial_current_step = none ∧
    (run_full_installation stages).current = (lastAttempted stages).elim none some ∧
    ((run_full_installation stages).current = none ↔ stages = []) := by
  have hc : (run_full_installation stages).current
      = (lastAttempted stages).elim none some := by
    rw [run_full_installation]
    exact aux_current traceSink stages [] none
  refine ⟨rfl, hc, ?_⟩
  rw [hc]
  cases stages with
  | nil => simp [lastAttempted]
  | cons p rest =>
    obtain ⟨s, o⟩ := p
    cases o <;> simp [lastAttempted]

/-- The trace contributed by a successful head stage. -/
theorem trace_cons_success (s : Stage) (rest : List (Stage × StageOutcome)) :
    (run_full_installation ((s, StageOutcome.success) :: rest)).sink
      = [startingEvent s, completedEvent s] ++ (run_full_installation rest).sink := by
  rw [run_full_installation, run_full_installation]
  simp only [run_full_installation_aux, traceSink]
  obtain ⟨_, h2, _, _⟩ := aux_trace_append rest ([] ++ [startingEvent s] ++ [completedEvent s])
    (some s.step)
  obtain ⟨_, g2, _⟩ := aux_cur_indep traceSink rest [] (some s.step) none
  rw [h2, g2]
  simp

/-- C8: error-event invariant. Every event delivered by
`run_full_installation` that carries an error message has progress exactly
0 and is the last event of the whole trace — the stage it belongs to, and
the run, are abandoned at that point. -/
theorem C8_error_terminal (stages : List (Stage × StageOutcome)) (ev : StepProgress)
    (hmem : ev ∈ (run_full_installation stages).sink) (herr : ev.error ≠ none) :
    ev.progress = 0 ∧ (run_full_installation stages).sink.getLast? = some ev := by
  induction stages with
  | nil =>
    rw [run_full_installation] at hmem
    simp [run_full_installation_aux] at hmem
  | cons p rest ih =>
    obtain ⟨s, o⟩ := p
    cases o with
    | success =>
      rw [trace_cons_success] at hmem ⊢
      have htail : ev ∈ (run_full_installation rest).sink := by
        simp only [List.mem_append, List.mem_cons, List.not_mem_nil, or_false] at hmem
        rcases hmem with (h | h) | h
        · subst h; simp [startingEvent] at herr
        · subst h; simp [completedEvent] at herr
        · exact h
      obtain ⟨hp, hl⟩ := ih htail
      refine ⟨hp, ?_⟩
      rw [List.getLast?_append_of_ne_nil _ (List.ne_nil_of_mem htail)]
      exact hl
    | failure =>
      have hs : (run_full_installation ((s, StageOutcome.failure) :: rest)).sink
          = [startingEvent s, failedEvent s] := by
        rw [run_full_installation]
        simp [run_full_installation_aux, traceSink]
      rw [hs] at hmem ⊢
      simp only [List.mem_cons, List.not_mem_nil, or_false] at hmem
      rcases hmem with h | h
      · subst h; simp [startingEvent] at herr
      · subst h; exact ⟨rfl, rfl⟩
    | raises e =>
      have hs : (run_full_installation ((s, StageOutcome.raises e) :: rest)).sink
          = [startingEvent s, errorEvent s e] := by
        rw [run_full_installation]
        simp [run_full_installation_aux, traceSink]
      rw [hs] at hmem ⊢
      simp only [List.mem_cons, List.not_mem_nil, or_false] at hmem
      rcases hmem with h | h
      · subst h; simp [startingEvent] at herr
      · subst h; exact ⟨rfl, rfl⟩

/-- Witness for C8 at a concrete failing run. -/
theorem C8_error_terminal_witness :
    failedEvent ⟨InstallationStep.disk_setup, "Setting up disk partitions"⟩
        ∈ (run_full_installation
            [(⟨InstallationStep.disk_setup, "Setting up disk partitions"⟩,
              StageOutcome.failure)]).sink ∧
      (failedEvent ⟨InstallationStep.disk_setup, "Setting up disk partitions"⟩).error
        ≠ none ∧
      (failedEvent ⟨InstallationStep.disk_setup, "Setting up disk partitions"⟩).progress
          = 0 ∧
        (run_full_installation
            [(⟨InstallationStep.disk_setup, "Setting up disk partitions"⟩,
              StageOutcome.failure)]).sink.getLast?
          = some (failedEvent ⟨InstallationStep.disk_setup, "Setting up disk partitions"⟩) := by
  have hmem : failedEvent ⟨InstallationStep.disk_setup, "Setting up disk partitions"⟩
      ∈ (run_full_installation
          [(⟨InstallationStep.disk_setup, "Setting up disk partitions"⟩,
            StageOutcome.failure)]).sink := by
    simp [run_full_installation, run_full_installation_aux, traceSink]
  have herr : (failedEvent
      ⟨InstallationStep.disk_setup, "Setting up disk partitions"⟩).error ≠ none := by
    simp [failedEvent]
  exact ⟨hmem, herr, C8_error_terminal _ _ hmem herr⟩

/-- C9 counterexample: the Navigator's step list and the Orchestrator's
stage list do not even have the same length, so they are not the same
ordered list of names. -/
theorem C9_counterexample :
    GentooUIApp.steps.length ≠ InstallationManager.steps.length := by
  decide

/-- C9 amended: the Navigator's 7 display steps and the Orchestrator's 10
stages are distinct lists; their identifier sequences are as listed here,
and the only identifiers occurring in both are `disk_setup` and
`finalization`. -/
theorem C9_step_lists :
    GentooUIApp.steps.length = 7 ∧
    InstallationManager.steps.length = 10 ∧
    GentooUIApp.steps.map Prod.snd
      = ["welcome", "disk_setup", "stage3", "configuration", "kernel",
          "bootloader", "finalization"] ∧
    InstallationManager.steps.map (fun p => p.1.value)
      = ["disk_setup", "stage3_download", "stage3_extract", "portage_setup",
          "system_config", "kernel_install", "kernel_config", "kernel_compile",
          "bootloader_install", "finalization"] ∧
    (GentooUIApp.steps.map Prod.snd).filter
        (fun n => (InstallationManager.steps.map (fun p => p.1.value)).contains n)
      = ["disk_setup", "finalization"] := by
  exact ⟨rfl, rfl, rfl, rfl, by decide⟩

/-- The boolean result and the invocation sequence do not depend on the
registered progress callback or its state. -/
theorem aux_sink_indep {σ₁ σ₂ : Type} (cb₁ : σ₁ → StepProgress → σ₁)
    (cb₂ : σ₂ → StepProgress → σ₂) (stages : List (Stage × StageOutcome)) :
    ∀ (a₁ : σ₁) (a₂ : σ₂) (cur₁ cur₂ : Option InstallationStep),
      (run_full_installation_aux cb₁ a₁ cur₁ stages).ok
          = (run_full_installation_aux cb₂ a₂ cur₂ stages).ok ∧
        (run_full_installation_aux cb₁ a₁ cur₁ stages).invoked
          = (run_full_installation_aux cb₂ a₂ cur₂ stages).invoked := by
  induction stages with
  | nil => intros; simp [run_full_installation_aux]
  | cons p rest ih =>
    obtain ⟨s, o⟩ := p
    intro a₁ a₂ cur₁ cur₂
    cases o with
    | success =>
      simp only [run_full_installation_aux]
      obtain ⟨h1, h2⟩ := ih (cb₁ (cb₁ a₁ (startingEvent s)) (completedEvent s))
        (cb₂ (cb₂ a₂ (startingEvent s)) (completedEvent s)) (some s.step) (some s.step)
      exact ⟨h1, by rw [h2]⟩
    | failure => simp [run_full_installation_aux]
    | raises e => simp [run_full_installation_aux]

/-- C10: progress-sink noninterference. For every stage sequence and every
pair of registered progress callbacks (each threading its own sink state),
`run_full_installation` produces the same boolean result and awaits the
same sequence of stage run operations; the no-op sink on `Unit`, which
models an unregistered callback, agrees with them as well. -/
theorem C10_sink_noninterference {σ₁ σ₂ : Type}
    (cb₁ : σ₁ → StepProgress → σ₁) (cb₂ : σ₂ → StepProgress → σ₂)
    (stages : List (Stage × StageOutcome)) (a₁ : σ₁) (a₂ : σ₂) :
    (run_full_installation_aux cb₁ a₁ none stages).ok
        = (run_full_installation_aux cb₂ a₂ none stages).ok ∧
      (run_full_installation_aux cb₁ a₁ none stages).invoked
        = (run_full_installation_aux cb₂ a₂ none stages).invoked ∧
      (run_full_installation_aux cb₁ a₁ none stages).ok
        = (run_full_installation stages).ok ∧
      (run_full_installation_aux (fun (u : Unit) _ => u) () none stages).ok
        = (run_full_installation stages).ok := by
  obtain ⟨h1, h2⟩ := aux_sink_indep cb₁ cb₂ stages a₁ a₂ none none
  obtain ⟨h3, _⟩ := aux_sink_indep cb₁ traceSink stages a₁ [] none none
  obtain ⟨h4, _⟩ := aux_sink_indep (fun (u : Unit) _ => u) traceSink stages () [] none none
  exact ⟨h1, h2, h3, h4⟩

end Gentooui
